import Mathlib

/-!
Verification development for the book2audio pipeline (src/book2audio.py).

The pipeline reads an e-book container, filters its content items down to
markup items whose normalized text is at least 100 characters long, assigns
them consecutive 1-based chapter indices, renders an output filename from a
template, synthesizes speech into a temporary file via an external engine,
and transcodes the result into the requested format via an external encoder.

External collaborators (the HTML-to-text extractor, the speech engine, the
transcoder, the temp-file namer) are modelled as explicit function
parameters; everything else is a direct translation of the Python source.
-/

/-- Characters removed from author and title before filename use
(re.sub of the class backslash slash star question colon quote lt gt pipe,
line 111 of the source). -/
def badChars : List Char := ['\\', '/', '*', '?', ':', '\"', '<', '>', '|']

/-- Sanitization of a metadata string for filesystem use: every character in
badChars is deleted (source line 111). -/
def sanitize (s : String) : String :=
  String.mk (s.data.filter (fun c => !(badChars.contains c)))

/-- Python truthiness of an optional string: None and the empty string are
falsy, any other string is truthy. -/
def pyTruthy : Option String → Bool
  | none => false
  | some s => !(s == "")

/-- Resolution of one identity field, mirroring source lines 98-105:
the command-line override if truthy, else the metadata value if non-empty,
else the literal fallback. -/
def resolveName (ov : Option String) (meta fallback : String) : String :=
  if pyTruthy ov then ov.getD fallback
  else if meta != "" then meta else fallback

/-- Python str.strip on both ends, over whitespace characters. -/
def pyStrip (s : String) : String :=
  String.mk (((s.data.dropWhile Char.isWhitespace).reverse.dropWhile
      Char.isWhitespace).reverse)

/-- Python str.strip with the dot character, used for ext.strip on source
line 135. -/
def pyStripDots (s : String) : String :=
  String.mk (((s.data.dropWhile (fun c => c == '.')).reverse.dropWhile
      (fun c => c == '.')).reverse)

/-- Fuel-driven non-overlapping left-to-right replacement on character
lists, the semantics of Python str.replace for a non-empty pattern.  Fuel
equal to the length of the subject list is always sufficient. -/
def replaceL : Nat → List Char → List Char → List Char → List Char
  | 0, s, _, _ => s
  | fuel+1, s, pat, rep =>
      match s with
      | [] => []
      | c :: rest =>
          if pat.isPrefixOf (c :: rest) then
            rep ++ replaceL fuel ((c :: rest).drop pat.length) pat rep
          else c :: replaceL fuel rest pat rep

/-- Python str.replace (non-empty pattern). -/
def pyReplace (s pat rep : String) : String :=
  String.mk (replaceL s.data.length s.data pat.data rep.data)

/-- Substring test on character lists, the semantics of the Python
membership test on strings. -/
def containsSubL (s pat : List Char) : Bool :=
  match s with
  | [] => pat == []
  | c :: rest => pat.isPrefixOf (c :: rest) || containsSubL rest pat

/-- Python substring membership test. -/
def containsSub (s pat : String) : Bool := containsSubL s.data pat.data

/-- Whether a string starts with the given start string. -/
def strStartsWith (s start : String) : Bool := start.data.isPrefixOf s.data

/-- Extension normalization of source line 128: prepend a dot unless the
format string already starts with one. -/
def normExt (format : String) : String :=
  if strStartsWith format "." then format else "." ++ format

/-- Conversion-directive flag characters of printf-style formatting. -/
def isFlagChar (c : Char) : Bool :=
  c == '0' || c == '-' || c == '+' || c == ' ' || c == '#'

/-- Numeric value of a digit sequence. -/
def digitsVal (ds : List Char) : Nat :=
  ds.foldl (fun a c => a * 10 + (c.toNat - '0'.toNat)) 0

/-- Padded decimal rendering of a number for a d-class directive: the minus
flag left-justifies with spaces, else the zero flag pads with zeros, else
spaces pad on the left. -/
def padNum (zeroFlag minusFlag : Bool) (width : Nat) (n : Nat) : List Char :=
  let s := (toString n).data
  if width ≤ s.length then s
  else if minusFlag then s ++ List.replicate (width - s.length) ' '
  else if zeroFlag then List.replicate (width - s.length) '0' ++ s
  else List.replicate (width - s.length) ' ' ++ s

/-- Padded rendering for an s-class directive: width pads with spaces only. -/
def padStr (minusFlag : Bool) (width : Nat) (s : List Char) : List Char :=
  if width ≤ s.length then s
  else if minusFlag then s ++ List.replicate (width - s.length) ' '
  else List.replicate (width - s.length) ' ' ++ s

/-- Python percent-formatting of a format string against one integer
argument, with the CPython error behavior: a doubled percent is a literal,
a d- i- u- or s-conversion consumes the single argument, a second
conversion raises a not-enough-arguments TypeError, an unknown conversion
character raises a ValueError, and an argument still unconsumed at the end
of the string raises the not-all-arguments-converted TypeError.  Fuel equal
to the length of the subject list is always sufficient. -/
def pyModAux : Nat → List Char → Nat → Bool → Except String (List Char)
  | _, [], _, consumed =>
      if consumed then Except.ok []
      else Except.error "not all arguments converted during string formatting"
  | 0, s, _, _ => Except.ok s
  | fuel+1, '%' :: rest, n, consumed =>
      let flags := rest.takeWhile isFlagChar
      let r1 := rest.dropWhile isFlagChar
      let widthDigits := r1.takeWhile (fun c => c.isDigit)
      let r2 := r1.dropWhile (fun c => c.isDigit)
      match r2 with
      | [] => Except.error "incomplete format"
      | conv :: r3 =>
          if conv == '%' then
            match pyModAux fuel r3 n consumed with
            | Except.ok t => Except.ok ('%' :: t)
            | Except.error e => Except.error e
          else if conv == 'd' || conv == 'i' || conv == 'u' then
            if consumed then Except.error "not enough arguments for format string"
            else
              match pyModAux fuel r3 n true with
              | Except.ok t =>
                  Except.ok (padNum (flags.contains '0') (flags.contains '-')
                    (digitsVal widthDigits) n ++ t)
              | Except.error e => Except.error e
          else if conv == 's' then
            if consumed then Except.error "not enough arguments for format string"
            else
              match pyModAux fuel r3 n true with
              | Except.ok t =>
                  Except.ok (padStr (flags.contains '-')
                    (digitsVal widthDigits) (toString n).data ++ t)
              | Except.error e => Except.error e
          else
            Except.error ("unsupported format character " ++ String.mk [conv])
  | fuel+1, c :: rest, n, consumed =>
      match pyModAux fuel rest n consumed with
      | Except.ok t => Except.ok (c :: t)
      | Except.error e => Except.error e

/-- Python percent-formatting of a string with a single integer argument;
an error value is an uncaught Python exception message. -/
def pyMod (fmt : String) (n : Nat) : Except String String :=
  match pyModAux fmt.data.length fmt.data n false with
  | Except.ok cs => Except.ok (String.mk cs)
  | Except.error e => Except.error e

/-- Token substitution of source lines 129-131: the Author token then the
Title token are replaced by the sanitized names. -/
def substTemplate (filenameFormat safeAuthor safeTitle : String) : String :=
  pyReplace (pyReplace filenameFormat "${Author}" safeAuthor) "${Title}" safeTitle

/-- Filename rendering of source lines 128-137: normalize the extension,
substitute the Author and Title tokens, apply percent-formatting with the
chapter number (a raised exception propagates), then either substitute the
ext token with the dot-stripped extension or append the full extension. -/
def renderFilename (filenameFormat safeAuthor safeTitle format : String)
    (chapterNum : Nat) : Except String String :=
  let ext := normExt format
  match pyMod (substTemplate filenameFormat safeAuthor safeTitle) chapterNum with
  | Except.error e => Except.error e
  | Except.ok f =>
      if containsSub f "${ext}" then
        Except.ok (pyReplace f "${ext}" (pyStripDots ext))
      else Except.ok (f ++ ext)


/-- One observable effect of a pipeline run, one constructor per print or
subprocess call site of the source. -/
inductive Event where
  | logIdentifiedAuthor (author : String)
  | logIdentifiedTitle (title : String)
  | logProcessingChapter (k : Nat)
  | logConverting (src dst ext : String)
  | sayCall (outPath text : String)
  | ffmpegCall (src dst : String)
  | errTTSFailed (k : Nat) (emsg : String)
  | errConvertFailed (ext : String)
  | errFfmpegNotFound
  deriving DecidableEq

/-- The exact diagnostic text each event prints, empty for the pure
subprocess invocations. -/
def Event.rendered : Event → String
  | .logIdentifiedAuthor a => "[INFO] Identified Author: " ++ a
  | .logIdentifiedTitle t => "[INFO] Identified Title: " ++ t
  | .logProcessingChapter k => "[INFO] Processing Chapter " ++ toString k ++ "..."
  | .logConverting s d x => "[INFO] Converting " ++ s ++ " to " ++ d ++ " (" ++ x ++ ")"
  | .sayCall _ _ => ""
  | .ffmpegCall _ _ => ""
  | .errTTSFailed k e =>
      "[ERROR] TTS or Conversion failed for chapter " ++ toString k ++ ": " ++ e
  | .errConvertFailed x => "[ERROR] Failed to convert to " ++ x ++ ". Is ffmpeg installed?"
  | .errFfmpegNotFound =>
      "[ERROR] ffmpeg not found. Please install it (brew install ffmpeg) for conversions."

/-- The log helper of source lines 15-18: an info event is emitted only in
verbose mode. -/
def logEv (e : Event) (verbose : Bool) : List Event :=
  if verbose then [e] else []

/-- Filesystem state: the set of existing file paths. -/
abbrev FS := List String

/-- File creation (idempotent on the path set). -/
def fsCreate (p : String) (fs : FS) : FS := if p ∈ fs then fs else p :: fs

/-- File deletion. -/
def fsRemove (p : String) (fs : FS) : FS := fs.filter (fun q => q != p)

/-- Outcome of one invocation of the external ffmpeg transcoder: success, a
nonzero exit (which may or may not have written a partial destination
file), or an absent binary. -/
inductive EncOutcome where
  | success
  | procError (partialLeft : Bool)
  | notFound
  deriving DecidableEq

/-- Command-line arguments relevant to process_book. -/
structure Args where
  author : Option String
  title : Option String
  format : String
  filenameFormat : String
  verbose : Bool

/-- One content item of the opened container: a type tag and raw content. -/
structure Item where
  itemType : Nat
  content : String

/-- An opened e-book container: metadata value lists and ordered items. -/
structure Book where
  creators : List String
  titles : List String
  items : List Item

/-- Metadata extraction of source lines 21-36: the first title value or the
empty string, the first creator value or the empty string, returned as the
author-title pair. -/
def get_epub_metadata (book : Book) : String × String :=
  (book.creators.headD "", book.titles.headD "")

/-- The environment of one process_book run: the external HTML-to-text
extractor, the run arguments, the sanitized names, and the temp-file namer. -/
structure Ctx where
  cleanHtml : String → String
  args : Args
  safeAuthor : String
  safeTitle : String
  tmpPath : Nat → String

/-- Result of processing a document: the event trace, the final filesystem
state, and the message of an uncaught exception when one escaped. -/
structure RunResult where
  events : List Event
  fs : FS
  aborted : Option String
  deriving DecidableEq

/-- The encoder adapter of source lines 48-80: a pass-through move for the
aiff extension, otherwise one ffmpeg invocation whose nonzero exit or
absence is caught inside this function and reported without any
destination-file cleanup. -/
def convert_audio (inputFile outputFile ext : String) (verbose : Bool)
    (outcome : EncOutcome) (fs : FS) : List Event × FS :=
  let ev0 := logEv (Event.logConverting inputFile outputFile ext) verbose
  if ext = ".aiff" then
    (ev0, fsCreate outputFile (fsRemove inputFile fs))
  else
    match outcome with
    | EncOutcome.success =>
        (ev0 ++ [Event.ffmpegCall inputFile outputFile], fsCreate outputFile fs)
    | EncOutcome.procError partialLeft =>
        (ev0 ++ [Event.ffmpegCall inputFile outputFile,
                 Event.errConvertFailed ext],
         if partialLeft then fsCreate outputFile fs else fs)
    | EncOutcome.notFound =>
        (ev0 ++ [Event.ffmpegCall inputFile outputFile, Event.errFfmpegNotFound],
         fs)

/-- The per-chapter try block of source lines 140-154: a named temporary
file is created, the say engine is invoked, and on success the encoder runs
and the temporary file is removed if it still exists; an exception raised
by say is caught and reported with the chapter index, skipping the removal. -/
def processChapter (ctx : Ctx) (sayOut : Nat → Option String)
    (encOut : Nat → EncOutcome) (k : Nat) (text finalName : String)
    (fs : FS) : List Event × FS :=
  let tmp := ctx.tmpPath k
  let fs1 := fsCreate tmp fs
  match sayOut k with
  | some emsg => ([Event.sayCall tmp text, Event.errTTSFailed k emsg], fs1)
  | none =>
      let c := convert_audio tmp finalName (normExt ctx.args.format)
                 ctx.args.verbose (encOut k) fs1
      let fs3 := if tmp ∈ c.2 then fsRemove tmp c.2 else c.2
      (Event.sayCall tmp text :: c.1, fs3)

/-- The chapter loop of source lines 115-156: each markup item whose
stripped extracted text reaches 100 characters becomes a chapter, consuming
one index; filename rendering happens before the try block, so an exception
it raises escapes the loop; every processed chapter, failed or not,
advances the chapter counter. -/
def processItems (ctx : Ctx) (sayOut : Nat → Option String)
    (encOut : Nat → EncOutcome) : List Item → Nat → FS → RunResult
  | [], _, fs => ⟨[], fs, none⟩
  | item :: rest, k, fs =>
      if item.itemType = 9 then
        if (pyStrip (ctx.cleanHtml item.content)).length < 100 then
          processItems ctx sayOut encOut rest k fs
        else
          match renderFilename ctx.args.filenameFormat ctx.safeAuthor
              ctx.safeTitle ctx.args.format k with
          | Except.error emsg =>
              ⟨logEv (Event.logProcessingChapter k) ctx.args.verbose, fs, some emsg⟩
          | Except.ok finalName =>
              let pc := processChapter ctx sayOut encOut k
                          (pyStrip (ctx.cleanHtml item.content)) finalName fs
              let r := processItems ctx sayOut encOut rest (k+1) pc.2
              ⟨logEv (Event.logProcessingChapter k) ctx.args.verbose
                 ++ pc.1 ++ r.events, r.fs, r.aborted⟩
      else processItems ctx sayOut encOut rest k fs

/-- Whether a content item is accepted as a chapter by the loop filters of
source lines 117-123: markup type tag and at least 100 characters of
stripped extracted text. -/
def accepted (cleanHtml : String → String) (item : Item) : Bool :=
  decide (item.itemType = 9)
    && decide (100 ≤ (pyStrip (cleanHtml item.content)).length)

/-- The body of process_book after a successful open (source lines 96-156):
resolve and log the identity, sanitize it, then run the chapter loop from
index 1 on an initially empty filesystem. -/
def process_book (cleanHtml : String → String) (tmpPath : Nat → String)
    (sayOut : Nat → Option String) (encOut : Nat → EncOutcome)
    (args : Args) (book : Book) : RunResult :=
  let meta := get_epub_metadata book
  let author := resolveName args.author meta.1 "Unknown Author"
  let title := resolveName args.title meta.2 "Unknown Title"
  let ev0 := logEv (Event.logIdentifiedAuthor author) args.verbose
               ++ logEv (Event.logIdentifiedTitle title) args.verbose
  let r := processItems ⟨cleanHtml, args, sanitize author, sanitize title, tmpPath⟩
             sayOut encOut book.items 1 []
  ⟨ev0 ++ r.events, r.fs, r.aborted⟩

/-- The chapter indices announced by the loop, in trace order. -/
def chapterStarts (evs : List Event) : List Nat :=
  evs.filterMap (fun e =>
    match e with
    | Event.logProcessingChapter k => some k
    | _ => none)

/-- The texts sent to the speech engine, in trace order. -/
def sayTexts (evs : List Event) : List String :=
  evs.filterMap (fun e =>
    match e with
    | Event.sayCall _ t => some t
    | _ => none)

/-- The error events of a trace, in order. -/
def errEvents (evs : List Event) : List Event :=
  evs.filterMap (fun e =>
    match e with
    | Event.errTTSFailed k m => some (Event.errTTSFailed k m)
    | Event.errConvertFailed x => some (Event.errConvertFailed x)
    | Event.errFfmpegNotFound => some Event.errFfmpegNotFound
    | _ => none)

/-- A text of exactly 100 identical characters, the shortest accepted
chapter body. -/
def aLongText : String := String.mk (List.replicate 100 'a')

/-- A concrete injective temp-file namer standing in for the platform
temp-file generator. -/
def tmp1 : Nat → String := fun k => "/tmp/tts" ++ toString k ++ ".aiff"

/-- The default filename template of the command surface. -/
def defaultTemplate : String := "${Author}-${Title} - Chapter %02d.${ext}"

theorem strData_append (s t : String) : (s ++ t).data = s.data ++ t.data := by
  cases s
  cases t
  rfl

theorem isPrefixOf_self_append (l t : List Char) : l.isPrefixOf (l ++ t) = true := by
  induction l with
  | nil => simp [List.isPrefixOf]
  | cons c cs ih => simp [List.isPrefixOf, ih]

theorem containsSubL_nil_pat (s : List Char) : containsSubL s [] = true := by
  cases s with
  | nil => rfl
  | cons c cs => simp [containsSubL, List.isPrefixOf]

theorem containsSubL_mid (a pat c : List Char) :
    containsSubL (a ++ (pat ++ c)) pat = true := by
  induction a with
  | nil =>
      cases pat with
      | nil => simpa using containsSubL_nil_pat c
      | cons p ps =>
          simp only [List.nil_append, List.cons_append, containsSubL]
          have h := isPrefixOf_self_append (p :: ps) c
          simp only [List.cons_append] at h
          simp [h]
  | cons x xs ih => simp [containsSubL, ih]

theorem chapterStarts_append (a b : List Event) :
    chapterStarts (a ++ b) = chapterStarts a ++ chapterStarts b := by
  simp [chapterStarts, List.filterMap_append]

theorem sayTexts_append (a b : List Event) :
    sayTexts (a ++ b) = sayTexts a ++ sayTexts b := by
  simp [sayTexts, List.filterMap_append]

theorem errEvents_append (a b : List Event) :
    errEvents (a ++ b) = errEvents a ++ errEvents b := by
  simp [errEvents, List.filterMap_append]

theorem chapterStarts_convert (i o x : String) (v : Bool) (out : EncOutcome)
    (fs : FS) : chapterStarts (convert_audio i o x v out fs).1 = [] := by
  by_cases hx : x = ".aiff" <;>
    cases out <;> cases v <;>
      simp [convert_audio, logEv, chapterStarts, hx]

theorem sayTexts_convert (i o x : String) (v : Bool) (out : EncOutcome)
    (fs : FS) : sayTexts (convert_audio i o x v out fs).1 = [] := by
  by_cases hx : x = ".aiff" <;>
    cases out <;> cases v <;>
      simp [convert_audio, logEv, sayTexts, hx]

theorem chapterStarts_processChapter (ctx : Ctx) (s : Nat → Option String)
    (e : Nat → EncOutcome) (k : Nat) (text finalName : String) (fs : FS) :
    chapterStarts (processChapter ctx s e k text finalName fs).1 = [] := by
  cases hs : s k with
  | some emsg => simp [processChapter, hs, chapterStarts]
  | none =>
      simp [processChapter, hs, chapterStarts]
      have := chapterStarts_convert (ctx.tmpPath k) finalName
        (normExt ctx.args.format) ctx.args.verbose (e k) (fsCreate (ctx.tmpPath k) fs)
      simpa [chapterStarts] using this

theorem sayTexts_processChapter (ctx : Ctx) (s : Nat → Option String)
    (e : Nat → EncOutcome) (k : Nat) (text finalName : String) (fs : FS) :
    sayTexts (processChapter ctx s e k text finalName fs).1 = [text] := by
  cases hs : s k with
  | some emsg => simp [processChapter, hs, sayTexts]
  | none =>
      simp [processChapter, hs, sayTexts]
      have := sayTexts_convert (ctx.tmpPath k) finalName
        (normExt ctx.args.format) ctx.args.verbose (e k) (fsCreate (ctx.tmpPath k) fs)
      simpa [sayTexts] using this

theorem processItems_starts (ctx : Ctx) (s : Nat → Option String)
    (e : Nat → EncOutcome) (hv : ctx.args.verbose = true) :
    ∀ (items : List Item) (k : Nat) (fs : FS),
      (processItems ctx s e items k fs).aborted = none →
      chapterStarts (processItems ctx s e items k fs).events
        = List.range' k (items.filter (accepted ctx.cleanHtml)).length := by
  intro items
  induction items with
  | nil => intro k fs _; simp [processItems, chapterStarts, List.range']
  | cons item rest ih =>
      intro k fs hab
      by_cases h9 : item.itemType = 9
      · by_cases hlen : (pyStrip (ctx.cleanHtml item.content)).length < 100
        · have hacc : accepted ctx.cleanHtml item = false := by
            simp [accepted, Nat.not_le.mpr hlen]
          have heq : processItems ctx s e (item :: rest) k fs
              = processItems ctx s e rest k fs := by
            simp [processItems, h9, hlen]
          rw [heq, List.filter_cons, hacc]
          exact ih k fs (heq ▸ hab)
        · have hacc : accepted ctx.cleanHtml item = true := by
            simp [accepted, h9, Nat.not_lt.mp hlen]
          rcases hr : renderFilename ctx.args.filenameFormat ctx.safeAuthor
              ctx.safeTitle ctx.args.format k with em | fn
          · exfalso
            have : (processItems ctx s e (item :: rest) k fs).aborted = some em := by
              simp [processItems, h9, hlen, hr]
            rw [this] at hab
            exact Option.noConfusion hab
          · have heq : processItems ctx s e (item :: rest) k fs
                = ⟨logEv (Event.logProcessingChapter k) ctx.args.verbose
                     ++ (processChapter ctx s e k
                          (pyStrip (ctx.cleanHtml item.content)) fn fs).1
                     ++ (processItems ctx s e rest (k+1)
                          (processChapter ctx s e k
                            (pyStrip (ctx.cleanHtml item.content)) fn fs).2).events,
                   (processItems ctx s e rest (k+1)
                     (processChapter ctx s e k
                       (pyStrip (ctx.cleanHtml item.content)) fn fs).2).fs,
                   (processItems ctx s e rest (k+1)
                     (processChapter ctx s e k
                       (pyStrip (ctx.cleanHtml item.content)) fn fs).2).aborted⟩ := by
              simp [processItems, h9, hlen, hr]
            have habr : (processItems ctx s e rest (k+1)
                (processChapter ctx s e k
                  (pyStrip (ctx.cleanHtml item.content)) fn fs).2).aborted = none := by
              rw [heq] at hab
              exact hab
            rw [heq]
            simp only [chapterStarts_append]
            rw [chapterStarts_processChapter]
            rw [ih (k+1) _ habr]
            rw [List.filter_cons, hacc]
            simp [logEv, hv, chapterStarts, List.range']
      · have hacc : accepted ctx.cleanHtml item = false := by
          simp [accepted, h9]
        have heq : processItems ctx s e (item :: rest) k fs
            = processItems ctx s e rest k fs := by
          simp [processItems, h9]
        rw [heq, List.filter_cons, hacc]
        exact ih k fs (heq ▸ hab)

theorem processItems_indep (ctx : Ctx) (s1 s2 : Nat → Option String)
    (e1 e2 : Nat → EncOutcome) :
    ∀ (items : List Item) (k : Nat) (fs1 fs2 : FS),
      chapterStarts (processItems ctx s1 e1 items k fs1).events
        = chapterStarts (processItems ctx s2 e2 items k fs2).events
      ∧ (processItems ctx s1 e1 items k fs1).aborted
        = (processItems ctx s2 e2 items k fs2).aborted := by
  intro items
  induction items with
  | nil => intro k fs1 fs2; simp [processItems]
  | cons item rest ih =>
      intro k fs1 fs2
      by_cases h9 : item.itemType = 9
      · by_cases hlen : (pyStrip (ctx.cleanHtml item.content)).length < 100
        · have heq1 : processItems ctx s1 e1 (item :: rest) k fs1
              = processItems ctx s1 e1 rest k fs1 := by
            simp [processItems, h9, hlen]
          have heq2 : processItems ctx s2 e2 (item :: rest) k fs2
              = processItems ctx s2 e2 rest k fs2 := by
            simp [processItems, h9, hlen]
          rw [heq1, heq2]
          exact ih k fs1 fs2
        · rcases hr : renderFilename ctx.args.filenameFormat ctx.safeAuthor
              ctx.safeTitle ctx.args.format k with em | fn
          · have heq1 : processItems ctx s1 e1 (item :: rest) k fs1
                = ⟨logEv (Event.logProcessingChapter k) ctx.args.verbose, fs1, some em⟩ := by
              simp [processItems, h9, hlen, hr]
            have heq2 : processItems ctx s2 e2 (item :: rest) k fs2
                = ⟨logEv (Event.logProcessingChapter k) ctx.args.verbose, fs2, some em⟩ := by
              simp [processItems, h9, hlen, hr]
            rw [heq1, heq2]
            exact ⟨rfl, rfl⟩
          · have heq1 : processItems ctx s1 e1 (item :: rest) k fs1
                = ⟨logEv (Event.logProcessingChapter k) ctx.args.verbose
                     ++ ((processChapter ctx s1 e1 k
                          (pyStrip (ctx.cleanHtml item.content)) fn fs1).1
                     ++ (processItems ctx s1 e1 rest (k+1)
                          (processChapter ctx s1 e1 k
                            (pyStrip (ctx.cleanHtml item.content)) fn fs1).2).events),
                   (processItems ctx s1 e1 rest (k+1)
                     (processChapter ctx s1 e1 k
                       (pyStrip (ctx.cleanHtml item.content)) fn fs1).2).fs,
                   (processItems ctx s1 e1 rest (k+1)
                     (processChapter ctx s1 e1 k
                       (pyStrip (ctx.cleanHtml item.content)) fn fs1).2).aborted⟩ := by
              simp [processItems, h9, hlen, hr]
            have heq2 : processItems ctx s2 e2 (item :: rest) k fs2
                = ⟨logEv (Event.logProcessingChapter k) ctx.args.verbose
                     ++ ((processChapter ctx s2 e2 k
                          (pyStrip (ctx.cleanHtml item.content)) fn fs2).1
                     ++ (processItems ctx s2 e2 rest (k+1)
                          (processChapter ctx s2 e2 k
                            (pyStrip (ctx.cleanHtml item.content)) fn fs2).2).events),
                   (processItems ctx s2 e2 rest (k+1)
                     (processChapter ctx s2 e2 k
                       (pyStrip (ctx.cleanHtml item.content)) fn fs2).2).fs,
                   (processItems ctx s2 e2 rest (k+1)
                     (processChapter ctx s2 e2 k
                       (pyStrip (ctx.cleanHtml item.content)) fn fs2).2).aborted⟩ := by
              simp [processItems, h9, hlen, hr]
            rw [heq1, heq2]
            constructor
            · simp only [chapterStarts_append, chapterStarts_processChapter]
              have := (ih (k+1)
                (processChapter ctx s1 e1 k
                  (pyStrip (ctx.cleanHtml item.content)) fn fs1).2
                (processChapter ctx s2 e2 k
                  (pyStrip (ctx.cleanHtml item.content)) fn fs2).2).1
              rw [this]
            · exact (ih (k+1) _ _).2
      · have heq1 : processItems ctx s1 e1 (item :: rest) k fs1
            = processItems ctx s1 e1 rest k fs1 := by
          simp [processItems, h9]
        have heq2 : processItems ctx s2 e2 (item :: rest) k fs2
            = processItems ctx s2 e2 rest k fs2 := by
          simp [processItems, h9]
        rw [heq1, heq2]
        exact ih k fs1 fs2

theorem sayCall_not_mem_logEv (v : Bool) (k : Nat) (p t : String) :
    Event.sayCall p t ∉ logEv (Event.logProcessingChapter k) v := by
  cases v <;> simp [logEv]

theorem sayCall_not_mem_convert (i o x : String) (v : Bool) (out : EncOutcome)
    (fs : FS) (p t : String) :
    Event.sayCall p t ∉ (convert_audio i o x v out fs).1 := by
  by_cases hx : x = ".aiff" <;>
    cases out <;> cases v <;>
      simp [convert_audio, logEv, hx]

theorem sayCall_mem_processChapter (ctx : Ctx) (s : Nat → Option String)
    (e : Nat → EncOutcome) (k : Nat) (text finalName : String) (fs : FS)
    (p t : String)
    (h : Event.sayCall p t ∈ (processChapter ctx s e k text finalName fs).1) :
    t = text := by
  cases hs : s k with
  | some emsg =>
      rw [processChapter] at h
      simp [hs] at h
      exact h.2
  | none =>
      rw [processChapter] at h
      simp [hs] at h
      rcases h with h | h
      · exact h.2
      · exact absurd h (sayCall_not_mem_convert _ _ _ _ _ _ _ _)

theorem processItems_sayTexts (ctx : Ctx) (s : Nat → Option String)
    (e : Nat → EncOutcome) :
    ∀ (items : List Item) (k : Nat) (fs : FS) (p t : String),
      Event.sayCall p t ∈ (processItems ctx s e items k fs).events →
      100 ≤ t.length := by
  intro items
  induction items with
  | nil => intro k fs p t h; simp [processItems] at h
  | cons item rest ih =>
      intro k fs p t h
      by_cases h9 : item.itemType = 9
      · by_cases hlen : (pyStrip (ctx.cleanHtml item.content)).length < 100
        · rw [show processItems ctx s e (item :: rest) k fs
              = processItems ctx s e rest k fs from by simp [processItems, h9, hlen]] at h
          exact ih k fs p t h
        · rcases hr : renderFilename ctx.args.filenameFormat ctx.safeAuthor
              ctx.safeTitle ctx.args.format k with em | fn
          · rw [show processItems ctx s e (item :: rest) k fs
                = ⟨logEv (Event.logProcessingChapter k) ctx.args.verbose, fs, some em⟩
                from by simp [processItems, h9, hlen, hr]] at h
            exact absurd h (sayCall_not_mem_logEv ctx.args.verbose k p t)
          · rw [show processItems ctx s e (item :: rest) k fs
                = ⟨logEv (Event.logProcessingChapter k) ctx.args.verbose
                     ++ ((processChapter ctx s e k
                          (pyStrip (ctx.cleanHtml item.content)) fn fs).1
                     ++ (processItems ctx s e rest (k+1)
                          (processChapter ctx s e k
                            (pyStrip (ctx.cleanHtml item.content)) fn fs).2).events),
                   (processItems ctx s e rest (k+1)
                     (processChapter ctx s e k
                       (pyStrip (ctx.cleanHtml item.content)) fn fs).2).fs,
                   (processItems ctx s e rest (k+1)
                     (processChapter ctx s e k
                       (pyStrip (ctx.cleanHtml item.content)) fn fs).2).aborted⟩
                from by simp [processItems, h9, hlen, hr]] at h
            have h' : Event.sayCall p t
                ∈ logEv (Event.logProcessingChapter k) ctx.args.verbose
                  ++ ((processChapter ctx s e k
                        (pyStrip (ctx.cleanHtml item.content)) fn fs).1
                  ++ (processItems ctx s e rest (k+1)
                        (processChapter ctx s e k
                          (pyStrip (ctx.cleanHtml item.content)) fn fs).2).events) := h
            rcases List.mem_append.mp h' with h1 | h2
            · exact absurd h1 (sayCall_not_mem_logEv ctx.args.verbose k p t)
            · rcases List.mem_append.mp h2 with h3 | h4
              · have := sayCall_mem_processChapter ctx s e k
                  (pyStrip (ctx.cleanHtml item.content)) fn fs p t h3
                rw [this]
                exact Nat.not_lt.mp hlen
              · exact ih (k+1) _ p t h4
      · rw [show processItems ctx s e (item :: rest) k fs
            = processItems ctx s e rest k fs from by simp [processItems, h9]] at h
        exact ih k fs p t h

theorem processItems_all_skipped (ctx : Ctx) (s : Nat → Option String)
    (e : Nat → EncOutcome) :
    ∀ (items : List Item) (k : Nat) (fs : FS),
      (∀ item ∈ items, accepted ctx.cleanHtml item = false) →
      processItems ctx s e items k fs = ⟨[], fs, none⟩ := by
  intro items
  induction items with
  | nil => intro k fs _; simp [processItems]
  | cons item rest ih =>
      intro k fs hall
      have hitem := hall item (List.mem_cons_self item rest)
      have hrest : ∀ it ∈ rest, accepted ctx.cleanHtml it = false :=
        fun it hit => hall it (List.mem_cons_of_mem item hit)
      by_cases h9 : item.itemType = 9
      · have hlen : (pyStrip (ctx.cleanHtml item.content)).length < 100 := by
          by_contra hcon
          have : accepted ctx.cleanHtml item = true := by
            simp [accepted, h9, Nat.not_lt.mp hcon]
          rw [this] at hitem
          exact Bool.noConfusion hitem
        rw [show processItems ctx s e (item :: rest) k fs
            = processItems ctx s e rest k fs from by simp [processItems, h9, hlen]]
        exact ih k fs hrest
      · rw [show processItems ctx s e (item :: rest) k fs
            = processItems ctx s e rest k fs from by simp [processItems, h9]]
        exact ih k fs hrest

theorem sayTexts_logEv_chapter (k : Nat) (v : Bool) :
    sayTexts (logEv (Event.logProcessingChapter k) v) = [] := by
  cases v <;> simp [logEv, sayTexts]

theorem sayTexts_logEv_idAuthor (a : String) (v : Bool) :
    sayTexts (logEv (Event.logIdentifiedAuthor a) v) = [] := by
  cases v <;> simp [logEv, sayTexts]

theorem sayTexts_logEv_idTitle (t : String) (v : Bool) :
    sayTexts (logEv (Event.logIdentifiedTitle t) v) = [] := by
  cases v <;> simp [logEv, sayTexts]

theorem chapterStarts_logEv_idAuthor (a : String) (v : Bool) :
    chapterStarts (logEv (Event.logIdentifiedAuthor a) v) = [] := by
  cases v <;> simp [logEv, chapterStarts]

theorem chapterStarts_logEv_idTitle (t : String) (v : Bool) :
    chapterStarts (logEv (Event.logIdentifiedTitle t) v) = [] := by
  cases v <;> simp [logEv, chapterStarts]

theorem processItems_template_error (ctx : Ctx) (s : Nat → Option String)
    (e : Nat → EncOutcome) (em : String)
    (h : ∀ j, pyMod (substTemplate ctx.args.filenameFormat ctx.safeAuthor
        ctx.safeTitle) j = Except.error em) :
    ∀ (items : List Item) (k : Nat) (fs : FS),
      (processItems ctx s e items k fs).fs = fs
      ∧ (processItems ctx s e items k fs).aborted
          = (if items.any (accepted ctx.cleanHtml) then some em else none)
      ∧ sayTexts (processItems ctx s e items k fs).events = [] := by
  have hrf : ∀ j, renderFilename ctx.args.filenameFormat ctx.safeAuthor
      ctx.safeTitle ctx.args.format j = Except.error em := by
    intro j
    simp [renderFilename, h j]
  intro items
  induction items with
  | nil => intro k fs; simp [processItems, sayTexts]
  | cons item rest ih =>
      intro k fs
      by_cases h9 : item.itemType = 9
      · by_cases hlen : (pyStrip (ctx.cleanHtml item.content)).length < 100
        · have hacc : accepted ctx.cleanHtml item = false := by
            simp [accepted, Nat.not_le.mpr hlen]
          rw [show processItems ctx s e (item :: rest) k fs
              = processItems ctx s e rest k fs from by simp [processItems, h9, hlen]]
          rcases ih k fs with ⟨h1, h2, h3⟩
          refine ⟨h1, ?_, h3⟩
          rw [h2]
          simp [List.any_cons, hacc]
        · have hacc : accepted ctx.cleanHtml item = true := by
            simp [accepted, h9, Nat.not_lt.mp hlen]
          rw [show processItems ctx s e (item :: rest) k fs
              = ⟨logEv (Event.logProcessingChapter k) ctx.args.verbose, fs, some em⟩
              from by simp [processItems, h9, hlen, hrf k]]
          refine ⟨rfl, ?_, sayTexts_logEv_chapter k ctx.args.verbose⟩
          simp [List.any_cons, hacc]
      · have hacc : accepted ctx.cleanHtml item = false := by
          simp [accepted, h9]
        rw [show processItems ctx s e (item :: rest) k fs
            = processItems ctx s e rest k fs from by simp [processItems, h9]]
        rcases ih k fs with ⟨h1, h2, h3⟩
        refine ⟨h1, ?_, h3⟩
        rw [h2]
        simp [List.any_cons, hacc]

/-- The run context built by process_book: the resolved sanitized names
together with the externally supplied collaborators. -/
def bookCtx (cleanHtml : String → String) (tmpPath : Nat → String)
    (args : Args) (book : Book) : Ctx :=
  ⟨cleanHtml, args,
   sanitize (resolveName args.author (get_epub_metadata book).1 "Unknown Author"),
   sanitize (resolveName args.title (get_epub_metadata book).2 "Unknown Title"),
   tmpPath⟩

theorem process_book_eq (cleanHtml : String → String) (tmpPath : Nat → String)
    (sayOut : Nat → Option String) (encOut : Nat → EncOutcome)
    (args : Args) (book : Book) :
    process_book cleanHtml tmpPath sayOut encOut args book
      = ⟨logEv (Event.logIdentifiedAuthor
            (resolveName args.author (get_epub_metadata book).1 "Unknown Author"))
            args.verbose
          ++ logEv (Event.logIdentifiedTitle
            (resolveName args.title (get_epub_metadata book).2 "Unknown Title"))
            args.verbose
          ++ (processItems (bookCtx cleanHtml tmpPath args book) sayOut encOut
               book.items 1 []).events,
         (processItems (bookCtx cleanHtml tmpPath args book) sayOut encOut
           book.items 1 []).fs,
         (processItems (bookCtx cleanHtml tmpPath args book) sayOut encOut
           book.items 1 []).aborted⟩ := by
  simp [process_book, bookCtx]

/-- A book whose only item is one accepted chapter, without metadata. -/
def bookOneChapter : Book := ⟨[], [], [⟨9, aLongText⟩]⟩

/-- A book with two accepted chapters, without metadata. -/
def bookTwoChapters : Book := ⟨[], [], [⟨9, aLongText⟩, ⟨9, aLongText⟩]⟩

/-- A book mixing an image item, a too-short markup item and two accepted
chapters, with metadata. -/
def bookMixed : Book :=
  ⟨["Ann"], ["T"], [⟨1, aLongText⟩, ⟨9, "short"⟩, ⟨9, aLongText⟩, ⟨9, aLongText⟩]⟩

/-- Default arguments: no overrides, m4a, default template, quiet. -/
def argsDefault : Args := ⟨none, none, ".m4a", defaultTemplate, false⟩

/-- Default arguments in verbose mode. -/
def argsVerbose : Args := ⟨none, none, ".m4a", defaultTemplate, true⟩

/-- Default arguments with the mp3 format. -/
def argsMp3 : Args := ⟨none, none, ".mp3", defaultTemplate, false⟩

/-- Arguments with a filename template lacking any conversion directive. -/
def argsNoDirective : Args := ⟨none, none, ".m4a", "Ch", false⟩

/-- Arguments whose author override contains a percent directive. -/
def argsPercentAuthor : Args := ⟨some "%d", none, ".m4a", defaultTemplate, true⟩

/-- Claim C4: filename rendering follows the three-step algorithm: the Author and
Title tokens are substituted first, then the chapter index is applied to the
printf-style integer directive, then the ext token in the result is
replaced by the dot-stripped extension, or else the full dotted extension
is appended; the default template with author Jane Doe, title Dune,
chapter 3 and format .mp3 yields Jane Doe-Dune - Chapter 03.mp3, and
template Ch%d with chapter 7 and format wav yields Ch7.wav. -/
theorem C4_filename_rendering :
    (∀ (f a t fmt : String) (n : Nat) (g : String),
        pyMod (substTemplate f a t) n = Except.ok g →
        renderFilename f a t fmt n
          = Except.ok (if containsSub g "${ext}"
              then pyReplace g "${ext}" (pyStripDots (normExt fmt))
              else g ++ normExt fmt))
    ∧ renderFilename defaultTemplate (sanitize "Jane Doe") (sanitize "Dune") ".mp3" 3
        = Except.ok "Jane Doe-Dune - Chapter 03.mp3"
    ∧ renderFilename "Ch%d" (sanitize "Jane Doe") (sanitize "Dune") "wav" 7
        = Except.ok "Ch7.wav" := by
  refine ⟨?_, by rfl, by rfl⟩
  intro f a t fmt n g h
  simp only [renderFilename, h]
  split <;> rfl

/-- Witness for C4: the hypothesis of the general step, discharged at the
first spec example. -/
theorem C4_witness :
    pyMod (substTemplate defaultTemplate "Jane Doe" "Dune") 3
        = Except.ok "Jane Doe-Dune - Chapter 03.${ext}"
    ∧ renderFilename defaultTemplate "Jane Doe" "Dune" ".mp3" 3
        = Except.ok (if containsSub "Jane Doe-Dune - Chapter 03.${ext}" "${ext}"
            then pyReplace "Jane Doe-Dune - Chapter 03.${ext}" "${ext}"
              (pyStripDots (normExt ".mp3"))
            else "Jane Doe-Dune - Chapter 03.${ext}" ++ normExt ".mp3") :=
  ⟨rfl, C4_filename_rendering.1 defaultTemplate "Jane Doe" "Dune" ".mp3" 3
    "Jane Doe-Dune - Chapter 03.${ext}" rfl⟩

/-- Claim C6: resolution precedence per identity field is override, then first
metadata value, then the literal fallback; a non-empty override wins even
over present metadata; the sanitized variant contains no forbidden
filesystem character; and the values logged by process_book are the
unsanitized resolved values. -/
theorem C6_identity_resolution :
    (∀ (a meta fb : String), a ≠ "" → resolveName (some a) meta fb = a)
    ∧ (∀ (ov : Option String) (meta fb : String), pyTruthy ov = false →
        meta ≠ "" → resolveName ov meta fb = meta)
    ∧ (∀ (ov : Option String) (fb : String), pyTruthy ov = false →
        resolveName ov "" fb = fb)
    ∧ (∀ (s : String) (c : Char), c ∈ (sanitize s).data →
        badChars.contains c = false)
    ∧ (∀ (cleanHtml : String → String) (tmpPath : Nat → String)
        (sayOut : Nat → Option String) (encOut : Nat → EncOutcome)
        (args : Args) (book : Book), args.verbose = true →
        (process_book cleanHtml tmpPath sayOut encOut args book).events.take 2
          = [Event.logIdentifiedAuthor
               (resolveName args.author (book.creators.headD "") "Unknown Author"),
             Event.logIdentifiedTitle
               (resolveName args.title (book.titles.headD "") "Unknown Title")]) := by
  refine ⟨?_, ?_, ?_, ?_, ?_⟩
  · intro a meta fb ha
    simp [resolveName, pyTruthy, ha]
  · intro ov meta fb hov hm
    simp [resolveName, hov, hm]
  · intro ov fb hov
    simp [resolveName, hov]
  · intro s c hc
    simp [sanitize, List.mem_filter] at hc
    simpa using hc.2
  · intro cleanHtml tmpPath sayOut encOut args book hv
    rw [process_book_eq]
    show (logEv (Event.logIdentifiedAuthor _) args.verbose
        ++ logEv (Event.logIdentifiedTitle _) args.verbose
        ++ (processItems _ sayOut encOut book.items 1 []).events).take 2 = _
    rw [hv]
    simp [logEv, get_epub_metadata]

/-- Witness for C6: concrete instantiations discharging every hypothesis. -/
theorem C6_witness :
    resolveName (some "X") "MetaAuthor" "Unknown Author" = "X"
    ∧ resolveName none "MetaAuthor" "Unknown Author" = "MetaAuthor"
    ∧ resolveName none "" "Unknown Author" = "Unknown Author"
    ∧ badChars.contains 'A' = false
    ∧ (process_book id tmp1 (fun _ => none) (fun _ => EncOutcome.success)
        argsVerbose bookMixed).events.take 2
      = [Event.logIdentifiedAuthor
           (resolveName argsVerbose.author (bookMixed.creators.headD "") "Unknown Author"),
         Event.logIdentifiedTitle
           (resolveName argsVerbose.title (bookMixed.titles.headD "") "Unknown Title")] :=
  ⟨C6_identity_resolution.1 "X" "MetaAuthor" "Unknown Author" (by decide),
   C6_identity_resolution.2.1 none "MetaAuthor" "Unknown Author" rfl (by decide),
   C6_identity_resolution.2.2.1 none "Unknown Author" rfl,
   C6_identity_resolution.2.2.2.1 "A" 'A' (by decide),
   C6_identity_resolution.2.2.2.2 id tmp1 (fun _ => none)
     (fun _ => EncOutcome.success) argsVerbose bookMixed rfl⟩

/-- Claim C10: an empty-string override does not override: it behaves exactly as
an absent override, falling back to the metadata value when that is
non-empty and to the literal fallback when the metadata value is empty. -/
theorem C10_empty_override :
    (∀ (meta fb : String), resolveName (some "") meta fb = resolveName none meta fb)
    ∧ (∀ (meta fb : String), meta ≠ "" → resolveName (some "") meta fb = meta)
    ∧ (∀ fb : String, resolveName (some "") "" fb = fb) := by
  refine ⟨?_, ?_, ?_⟩
  · intro meta fb
    simp [resolveName, pyTruthy]
  · intro meta fb hm
    simp [resolveName, pyTruthy, hm]
  · intro fb
    simp [resolveName, pyTruthy]

/-- Witness for C10: concrete instantiation discharging the hypothesis. -/
theorem C10_witness :
    resolveName (some "") "MetaAuthor" "Unknown Author" = "MetaAuthor" :=
  C10_empty_override.2.1 "MetaAuthor" "Unknown Author" (by decide)

/-- Claim C2: evaluation of the code at the failing input.  A single accepted
chapter whose say invocation raises: the chapter-level handler fires (the
reported error is the TTS failure for chapter 1), yet the temporary
synthesis file is still present when the run ends, because the removal on
source line 149 sits inside the try block after the say call and is never
reached on a synthesis failure. -/
theorem C2_temp_leak_on_synth_failure :
    (process_book id tmp1 (fun _ => some "say failed")
        (fun _ => EncOutcome.success) argsDefault bookOneChapter).fs
      = ["/tmp/tts1.aiff"]
    ∧ errEvents (process_book id tmp1 (fun _ => some "say failed")
        (fun _ => EncOutcome.success) argsDefault bookOneChapter).events
      = [Event.errTTSFailed 1 "say failed"] :=
  ⟨rfl, rfl⟩

/-- Counterexample for C7: an encoder exit-with-error that has already
written a partial destination file.  convert_audio reports the failure but
performs no cleanup, so the destination file still exists afterward,
contradicting the claim that no destination file exists after a failure. -/
theorem C7_counterexample :
    (convert_audio "/tmp/tts1.aiff" "out.mp3" ".mp3" false
        (EncOutcome.procError true) ["/tmp/tts1.aiff"]).2
      = ["out.mp3", "/tmp/tts1.aiff"]
    ∧ errEvents (convert_audio "/tmp/tts1.aiff" "out.mp3" ".mp3" false
        (EncOutcome.procError true) ["/tmp/tts1.aiff"]).1
      = [Event.errConvertFailed ".mp3"] :=
  ⟨rfl, rfl⟩

/-- Claim C7 as amended: when the transcoder is unavailable the failure is
reported and the adapter creates no destination file; when the transcoder
exits with an error the failure is reported but the adapter performs no
cleanup of the destination path, so a partial destination file written by
the encoder remains exactly when the encoder left one. -/
theorem C7_encode_failure_no_cleanup (src dst ext : String) (v p : Bool)
    (fs : FS) (hx : ext ≠ ".aiff") :
    ((convert_audio src dst ext v EncOutcome.notFound fs).2 = fs
      ∧ errEvents (convert_audio src dst ext v EncOutcome.notFound fs).1
          = [Event.errFfmpegNotFound])
    ∧ ((convert_audio src dst ext v (EncOutcome.procError p) fs).2
          = (if p then fsCreate dst fs else fs)
      ∧ errEvents (convert_audio src dst ext v (EncOutcome.procError p) fs).1
          = [Event.errConvertFailed ext]) := by
  cases v <;> cases p <;> simp [convert_audio, errEvents, logEv, hx]

/-- Witness for C7: the amended statement at a concrete input. -/
theorem C7_witness :
    ((convert_audio "a.aiff" "o.mp3" ".mp3" false EncOutcome.notFound []).2 = []
      ∧ errEvents (convert_audio "a.aiff" "o.mp3" ".mp3" false
          EncOutcome.notFound []).1 = [Event.errFfmpegNotFound])
    ∧ ((convert_audio "a.aiff" "o.mp3" ".mp3" false
          (EncOutcome.procError true) []).2 = (if true then fsCreate "o.mp3" [] else [])
      ∧ errEvents (convert_audio "a.aiff" "o.mp3" ".mp3" false
          (EncOutcome.procError true) []).1 = [Event.errConvertFailed ".mp3"]) :=
  C7_encode_failure_no_cleanup "a.aiff" "o.mp3" ".mp3" false true [] (by decide)

/-- Claim C9: the sanitized author override percent-d passes sanitization intact,
and because token substitution precedes the percent-formatting step, the
rendering of chapter 1 raises a not-enough-arguments TypeError outside the
per-chapter handler: the document aborts, chapter 1 is the only chapter
started, and no synthesis is ever invoked, so the remaining chapter of the
document is lost. -/
theorem C9_percent_author_aborts_document :
    containsSub (sanitize "%d") "%" = true
    ∧ (process_book id tmp1 (fun _ => none) (fun _ => EncOutcome.success)
        argsPercentAuthor bookTwoChapters).aborted
      = some "not enough arguments for format string"
    ∧ chapterStarts (process_book id tmp1 (fun _ => none)
        (fun _ => EncOutcome.success) argsPercentAuthor bookTwoChapters).events
      = [1]
    ∧ sayTexts (process_book id tmp1 (fun _ => none)
        (fun _ => EncOutcome.success) argsPercentAuthor bookTwoChapters).events
      = [] :=
  ⟨rfl, rfl, rfl, rfl⟩

/-- Counterexample for C8: with template Ch and one accepted chapter the
run is aborted by an escaping TypeError and no synthesis happens, so the
claim that the run is not aborted and no exception escapes is false. -/
theorem C8_counterexample :
    (process_book id tmp1 (fun _ => none) (fun _ => EncOutcome.success)
        argsNoDirective bookOneChapter).aborted
      = some "not all arguments converted during string formatting"
    ∧ sayTexts (process_book id tmp1 (fun _ => none)
        (fun _ => EncOutcome.success) argsNoDirective bookOneChapter).events = []
    ∧ (process_book id tmp1 (fun _ => none) (fun _ => EncOutcome.success)
        argsNoDirective bookOneChapter).fs = [] :=
  ⟨rfl, rfl, rfl⟩

/-- Claim C8 as amended: when percent-formatting of the substituted template
fails for every chapter index (as with a template lacking any conversion
directive), the first accepted chapter raises outside the per-chapter
handler: the document aborts with that exception, no synthesis is invoked
and no file is created; with no accepted item nothing is raised. -/
theorem C8_missing_directive_aborts (cleanHtml : String → String)
    (tmpPath : Nat → String) (sayOut : Nat → Option String)
    (encOut : Nat → EncOutcome) (args : Args) (book : Book) (em : String)
    (h : ∀ j, pyMod (substTemplate args.filenameFormat
        (sanitize (resolveName args.author (get_epub_metadata book).1 "Unknown Author"))
        (sanitize (resolveName args.title (get_epub_metadata book).2 "Unknown Title"))) j
      = Except.error em) :
    (process_book cleanHtml tmpPath sayOut encOut args book).fs = []
    ∧ (process_book cleanHtml tmpPath sayOut encOut args book).aborted
        = (if book.items.any (accepted cleanHtml) then some em else none)
    ∧ sayTexts (process_book cleanHtml tmpPath sayOut encOut args book).events
        = [] := by
  have key := processItems_template_error (bookCtx cleanHtml tmpPath args book)
    sayOut encOut em h book.items 1 []
  rw [process_book_eq]
  refine ⟨key.1, key.2.1, ?_⟩
  show sayTexts (logEv (Event.logIdentifiedAuthor _) args.verbose
      ++ logEv (Event.logIdentifiedTitle _) args.verbose
      ++ (processItems (bookCtx cleanHtml tmpPath args book) sayOut encOut
            book.items 1 []).events) = []
  rw [sayTexts_append, sayTexts_append, sayTexts_logEv_idAuthor,
    sayTexts_logEv_idTitle, key.2.2]
  rfl

/-- Witness for C8: the amended statement at the concrete directive-free
template, the hypothesis discharged for every chapter index at once. -/
theorem C8_witness :
    (process_book id tmp1 (fun _ => none) (fun _ => EncOutcome.success)
        argsNoDirective bookTwoChapters).fs = []
    ∧ (process_book id tmp1 (fun _ => none) (fun _ => EncOutcome.success)
        argsNoDirective bookTwoChapters).aborted
      = (if bookTwoChapters.items.any (accepted id)
          then some "not all arguments converted during string formatting" else none)
    ∧ sayTexts (process_book id tmp1 (fun _ => none)
        (fun _ => EncOutcome.success) argsNoDirective bookTwoChapters).events = [] :=
  C8_missing_directive_aborts id tmp1 (fun _ => none) (fun _ => EncOutcome.success)
    argsNoDirective bookTwoChapters
    "not all arguments converted during string formatting" (fun _ => rfl)

theorem rendered_tts_contains_index (k : Nat) (e : String) :
    containsSub (Event.rendered (Event.errTTSFailed k e)) (toString k) = true := by
  have hd : (Event.rendered (Event.errTTSFailed k e)).data
      = ("[ERROR] TTS or Conversion failed for chapter ").data
        ++ ((toString k).data ++ (": " ++ e).data) := by
    simp [Event.rendered, strData_append, List.append_assoc]
  unfold containsSub
  rw [hd]
  exact containsSubL_mid _ _ _

/-- Claim C3 as amended: a synthesis failure is caught at the chapter boundary
and reported by a message that does reference the chapter index; a
transcode failure is caught inside the encoder adapter and reported by a
message that does not depend on the chapter index; and in both cases
processing continues identically: the chapters started and the abort status
of a document are independent of which chapters' synthesis or encoding
fail. -/
theorem C3_failure_isolation :
    (∀ (ctx : Ctx) (s : Nat → Option String) (e : Nat → EncOutcome) (k : Nat)
        (emsg text finalName : String) (fs : FS), s k = some emsg →
        (processChapter ctx s e k text finalName fs).1
          = [Event.sayCall (ctx.tmpPath k) text, Event.errTTSFailed k emsg]
        ∧ containsSub (Event.rendered (Event.errTTSFailed k emsg)) (toString k)
            = true)
    ∧ (∀ (ctx : Ctx) (s : Nat → Option String) (e : Nat → EncOutcome) (k : Nat)
        (p : Bool) (text finalName : String) (fs : FS),
        s k = none → e k = EncOutcome.procError p →
        normExt ctx.args.format ≠ ".aiff" →
        errEvents (processChapter ctx s e k text finalName fs).1
          = [Event.errConvertFailed (normExt ctx.args.format)])
    ∧ (∀ (ctx : Ctx) (s1 s2 : Nat → Option String) (e1 e2 : Nat → EncOutcome)
        (items : List Item) (k : Nat) (fs1 fs2 : FS),
        chapterStarts (processItems ctx s1 e1 items k fs1).events
          = chapterStarts (processItems ctx s2 e2 items k fs2).events
        ∧ (processItems ctx s1 e1 items k fs1).aborted
          = (processItems ctx s2 e2 items k fs2).aborted) := by
  refine ⟨?_, ?_, ?_⟩
  · intro ctx s e k emsg text finalName fs hs
    exact ⟨by simp [processChapter, hs], rendered_tts_contains_index k emsg⟩
  · intro ctx s e k p text finalName fs hs he hx
    cases hv : ctx.args.verbose <;>
      simp [processChapter, hs, he, convert_audio, hx, errEvents, logEv, hv]
  · intro ctx s1 s2 e1 e2 items k fs1 fs2
    exact processItems_indep ctx s1 s2 e1 e2 items k fs1 fs2

/-- Witness for C3: the amended statement at concrete inputs discharging
every hypothesis. -/
theorem C3_witness :
    ((processChapter ⟨id, argsMp3, "A", "T", tmp1⟩ (fun _ => some "boom")
        (fun _ => EncOutcome.success) 1 "text" "o.mp3" []).1
      = [Event.sayCall (tmp1 1) "text", Event.errTTSFailed 1 "boom"]
      ∧ containsSub (Event.rendered (Event.errTTSFailed 1 "boom")) (toString 1)
          = true)
    ∧ errEvents (processChapter ⟨id, argsMp3, "A", "T", tmp1⟩ (fun _ => none)
        (fun _ => EncOutcome.procError false) 1 "text" "o.mp3" []).1
      = [Event.errConvertFailed (normExt argsMp3.format)]
    ∧ (chapterStarts (processItems ⟨id, argsMp3, "A", "T", tmp1⟩
          (fun _ => some "boom") (fun _ => EncOutcome.success)
          bookTwoChapters.items 1 []).events
        = chapterStarts (processItems ⟨id, argsMp3, "A", "T", tmp1⟩
            (fun _ => none) (fun _ => EncOutcome.procError false)
            bookTwoChapters.items 1 []).events
      ∧ (processItems ⟨id, argsMp3, "A", "T", tmp1⟩ (fun _ => some "boom")
          (fun _ => EncOutcome.success) bookTwoChapters.items 1 []).aborted
        = (processItems ⟨id, argsMp3, "A", "T", tmp1⟩ (fun _ => none)
            (fun _ => EncOutcome.procError false)
            bookTwoChapters.items 1 []).aborted) :=
  ⟨C3_failure_isolation.1 ⟨id, argsMp3, "A", "T", tmp1⟩ (fun _ => some "boom")
      (fun _ => EncOutcome.success) 1 "boom" "text" "o.mp3" [] rfl,
   C3_failure_isolation.2.1 ⟨id, argsMp3, "A", "T", tmp1⟩ (fun _ => none)
      (fun _ => EncOutcome.procError false) 1 false "text" "o.mp3" [] rfl rfl
      (by decide),
   C3_failure_isolation.2.2 ⟨id, argsMp3, "A", "T", tmp1⟩ (fun _ => some "boom")
      (fun _ => none) (fun _ => EncOutcome.success)
      (fun _ => EncOutcome.procError false) bookTwoChapters.items 1 [] []⟩

/-- Counterexample for C3 as stated: a two-chapter document whose first
chapter fails transcoding.  Processing continues (chapter 2 produces its
artifact, nothing for chapter 1, no abort), but the only error reported is
the convert failure message, which does not reference chapter index 1. -/
theorem C3_counterexample :
    errEvents (process_book id tmp1 (fun _ => none)
        (fun k => if k = 1 then EncOutcome.procError false else EncOutcome.success)
        argsMp3 bookTwoChapters).events
      = [Event.errConvertFailed ".mp3"]
    ∧ containsSub (Event.rendered (Event.errConvertFailed ".mp3")) (toString 1)
        = false
    ∧ (process_book id tmp1 (fun _ => none)
        (fun k => if k = 1 then EncOutcome.procError false else EncOutcome.success)
        argsMp3 bookTwoChapters).fs
      = ["Unknown Author-Unknown Title - Chapter 02.mp3"]
    ∧ (process_book id tmp1 (fun _ => none)
        (fun k => if k = 1 then EncOutcome.procError false else EncOutcome.success)
        argsMp3 bookTwoChapters).aborted = none :=
  ⟨rfl, rfl, rfl, rfl⟩

/-- Claim C1: in any non-aborted verbose run, the chapters started are exactly
the indices 1 through n in increasing order, where n is the number of
accepted content items (markup type, at least 100 characters of normalized
text); the statement holds for every synthesis and encode oracle, so a
chapter whose synthesis or encoding fails still consumes its index and the
indices of later chapters are unchanged, and skipped items never consume an
index. -/
theorem C1_chapter_order (cleanHtml : String → String) (tmpPath : Nat → String)
    (sayOut : Nat → Option String) (encOut : Nat → EncOutcome)
    (args : Args) (book : Book) (hv : args.verbose = true)
    (hab : (process_book cleanHtml tmpPath sayOut encOut args book).aborted
        = none) :
    chapterStarts (process_book cleanHtml tmpPath sayOut encOut args book).events
      = List.range' 1 (book.items.filter (accepted cleanHtml)).length := by
  rw [process_book_eq] at hab ⊢
  have habi : (processItems (bookCtx cleanHtml tmpPath args book) sayOut encOut
      book.items 1 []).aborted = none := hab
  show chapterStarts (logEv (Event.logIdentifiedAuthor _) args.verbose
      ++ logEv (Event.logIdentifiedTitle _) args.verbose
      ++ (processItems (bookCtx cleanHtml tmpPath args book) sayOut encOut
            book.items 1 []).events) = _
  rw [chapterStarts_append, chapterStarts_append, chapterStarts_logEv_idAuthor,
    chapterStarts_logEv_idTitle]
  show chapterStarts (processItems (bookCtx cleanHtml tmpPath args book)
      sayOut encOut book.items 1 []).events = _
  exact processItems_starts (bookCtx cleanHtml tmpPath args book) sayOut encOut
    hv book.items 1 [] habi

/-- Witness for C1: the mixed book in verbose mode with a failing first
chapter still starts exactly chapters 1 and 2. -/
theorem C1_witness :
    argsVerbose.verbose = true
    ∧ (process_book id tmp1 (fun k => if k = 1 then some "boom" else none)
        (fun _ => EncOutcome.success) argsVerbose bookMixed).aborted = none
    ∧ chapterStarts (process_book id tmp1
        (fun k => if k = 1 then some "boom" else none)
        (fun _ => EncOutcome.success) argsVerbose bookMixed).events
      = List.range' 1 (bookMixed.items.filter (accepted id)).length :=
  ⟨rfl, rfl,
   C1_chapter_order id tmp1 (fun k => if k = 1 then some "boom" else none)
     (fun _ => EncOutcome.success) argsVerbose bookMixed rfl rfl⟩

/-- Claim C5: a content item whose normalized trimmed text is shorter than 100
characters never produces a chapter: every text ever sent to synthesis has
length at least 100, and a document none of whose items pass the filters
produces no events at all (no synthesis, no encoding, no diagnostics),
leaves the filesystem unchanged (no output file) and consumes no index. -/
theorem C5_short_items_skipped (ctx : Ctx) (s : Nat → Option String)
    (e : Nat → EncOutcome) :
    (∀ (items : List Item) (k : Nat) (fs : FS) (p t : String),
        Event.sayCall p t ∈ (processItems ctx s e items k fs).events →
        100 ≤ t.length)
    ∧ (∀ (items : List Item) (k : Nat) (fs : FS),
        (∀ item ∈ items, accepted ctx.cleanHtml item = false) →
        processItems ctx s e items k fs = ⟨[], fs, none⟩) :=
  ⟨processItems_sayTexts ctx s e, processItems_all_skipped ctx s e⟩

/-- Witness for C5: both parts at concrete inputs: a synthesized text of
the mixed book has length 100 or more, and a document with only an image
item and a short markup item produces nothing. -/
theorem C5_witness :
    (Event.sayCall (tmp1 1) aLongText
        ∈ (processItems ⟨id, argsDefault, "A", "T", tmp1⟩ (fun _ => none)
            (fun _ => EncOutcome.success) bookOneChapter.items 1 []).events
      ∧ 100 ≤ aLongText.length)
    ∧ ((∀ item ∈ [Item.mk 1 aLongText, Item.mk 9 "short"],
          accepted id item = false)
      ∧ processItems ⟨id, argsDefault, "A", "T", tmp1⟩ (fun _ => none)
          (fun _ => EncOutcome.success) [Item.mk 1 aLongText, Item.mk 9 "short"]
          1 [] = ⟨[], [], none⟩) :=
  ⟨⟨by decide,
    (C5_short_items_skipped ⟨id, argsDefault, "A", "T", tmp1⟩ (fun _ => none)
        (fun _ => EncOutcome.success)).1 bookOneChapter.items 1 [] (tmp1 1)
      aLongText (by decide)⟩,
   ⟨by decide,
    (C5_short_items_skipped ⟨id, argsDefault, "A", "T", tmp1⟩ (fun _ => none)
        (fun _ => EncOutcome.success)).2 [Item.mk 1 aLongText, Item.mk 9 "short"]
      1 [] (by decide)⟩⟩
